import Mathlib

/-!
Verification of the TaskMaster task-synchronization engine and terminal
session bridge against its specification.

The definitions below are a shallow embedding of the TypeScript sources:

* `src/server/services/openai.ts` — `TaskwarriorService` (the variant with
  retry logic): `convertTaskwarriorTask`, `createTaskwarriorCommand`,
  `executeCommand`, `getTask`, `getTasks`, `createTask`, `updateTask`.
* `src/server/routes.ts` — the WebSocket terminal session bridge.
* `src/client/src/components/terminal/Terminal.tsx` (the reconnecting
  variant) — the client line editor's Enter handler and reconnect constants.

External effects (the `task` subprocess, the system clock, the wall-time
sleeps, `console` output, websocket sends) are made explicit: subprocess
calls are answered by an oracle `Env.call` indexed by the invocation count
within one operation, and every operation returns the list of subprocess
invocations and sleeps it performed (`evs`) together with the list of
console log entries it emitted (`logs`).
-/

set_option autoImplicit false

deriving instance DecidableEq for Except

namespace TaskMaster

/-- A console log entry, tagged with the console method the source calls. -/
inductive LogEvent where
  | consoleLog (msg : String)
  | consoleError (msg : String)
  | consoleWarn (msg : String)
deriving DecidableEq, Repr

/-- `true` exactly for plain `console.log` entries. -/
def LogEvent.isInfo : LogEvent → Bool
  | .consoleLog _ => true
  | _ => false

/-- `true` exactly for `console.warn` entries. -/
def LogEvent.isWarn : LogEvent → Bool
  | .consoleWarn _ => true
  | _ => false

/-- Externally visible steps of one engine operation: a subprocess
invocation with its full command string, or a timed sleep
(`delay(ms)` in the source). -/
inductive Ev where
  | exec (cmd : String)
  | sleep (ms : Nat)
deriving DecidableEq, Repr

/-- A JS `Date` as the engine handles it: we track the two halves of the
ISO-8601 rendering `toISOString()` produces, since the engine only ever
consumes `toISOString().split('T')[0]`.  `datePart` is `YYYY-MM-DD`,
`timePart` is `HH:MM:SS.sssZ`.  The source accepts either a string or a
`Date` for date-bearing request fields and converts the string with
`new Date(...)` first; both branches end at a `Date`, which this type
models. -/
structure DateVal where
  datePart : String
  timePart : String
deriving DecidableEq, Repr

/-- A `Date` value stored inside a returned task record: either parsed
from an export field with `new Date(s)`, or `new Date()` — the clock
reading at operation time (all `new Date()` calls within one operation
are identified; no verified claim depends on sub-operation clock drift) —
or a request-supplied date passed through unchanged by the degraded
fallback literals (`due: task.due || null`). -/
inductive JsDate where
  | ofString (s : String)
  | current
  | ofReq (d : DateVal)
deriving DecidableEq, Repr

/-- JS truthiness for an optional string: `undefined`/`null` and the empty
string are falsy. -/
def truthy : Option String → Bool
  | none => false
  | some s => s ≠ ""

/-- The JS pattern `x || null` on an optional string field. -/
def orNull (x : Option String) : Option String :=
  if truthy x then x else none

/-- The JS pattern `x || d` on an optional string, with default `d`. -/
def jsOrStr (x : Option String) (d : String) : String :=
  match x with
  | some s => if s = "" then d else s
  | none => d

/-- JS `String.prototype.includes` with a single-character needle,
modelled on the character list. -/
def containsChar (s : String) (c : Char) : Bool := s.toList.contains c

/-- JS `String.prototype.startsWith`, modelled on the character list. -/
def strStartsWith (s p : String) : Bool := p.toList.isPrefixOf s.toList

/-- JS `String.prototype.substring(n)`, modelled on the character list. -/
def substrFrom (s : String) (n : Nat) : String := String.mk (s.toList.drop n)

/-- JS `String.prototype.trim`, modelled on the character list. -/
def jsTrim (s : String) : String :=
  String.mk (((s.toList.dropWhile Char.isWhitespace).reverse.dropWhile
    Char.isWhitespace).reverse)

/-- The `annotations` field of a Taskwarrior JSON export record as the
converter reads it: an array of objects (of which the code keeps each
entry's `description`), a plain string, or absent. -/
inductive AnnField where
  | arr (descs : List String)
  | str (s : String)
  | absent
deriving DecidableEq, Repr

/-- A record of the external tool's JSON export array, restricted to the
fields `convertTaskwarriorTask` reads.  Date fields are the raw export
strings; `urgency` is the `?.toString()` rendering of the export's number
(absent when the field is absent); `endAt` models the export's `end`
field. -/
structure TwTask where
  uuid : Option String := none
  description : Option String := none
  status : Option String := none
  priority : Option String := none
  project : Option String := none
  tags : Option (List String) := none
  due : Option String := none
  waitTs : Option String := none
  scheduledTs : Option String := none
  untilTs : Option String := none
  annotationsField : AnnField := .absent
  entry : Option String := none
  modifiedTs : Option String := none
  endAt : Option String := none
  urgency : Option String := none
deriving DecidableEq, Repr

/-- The application task representation (`TaskWithMetadata` over the
`tasks` schema of `src/shared/schema.ts`).  `tagsList` is optional here
because the minimal fallback object literals in `createTask`/`updateTask`
omit it (it is `undefined` on those records). -/
structure TaskRec where
  id : String
  description : String
  status : String
  priority : Option String
  project : Option String
  tags : Option (List String)
  tagsList : Option (List String)
  due : Option JsDate
  wait : Option JsDate
  scheduled : Option JsDate
  untilDate : Option JsDate
  annotations : Option String
  created : JsDate
  modified : JsDate
  completed : Option JsDate
  urgency : Option String
deriving DecidableEq, Repr

/-- An `InsertTask` create request (`insertTaskSchema` of
`src/shared/schema.ts`): description required, everything else optional. -/
structure InsertTask where
  description : String
  project : Option String := none
  priority : Option String := none
  due : Option DateVal := none
  tags : Option (List String) := none
  annotations : Option String := none
  status : Option String := none
deriving DecidableEq, Repr

/-- A `Partial<Task>` update request as `updateTask` consumes it. -/
structure UpdateReq where
  description : Option String := none
  project : Option String := none
  priority : Option String := none
  due : Option DateVal := none
  status : Option String := none
  tags : Option (List String) := none
  annotations : Option String := none
deriving DecidableEq, Repr

/-- The per-service taskrc path (`path.join(this.dataDir, ".taskrc")`;
`dataDir` resolution from `process.cwd()` is environmental and fixed
here). -/
def taskrcPath : String := "data/taskwarrior/.taskrc"

/-- `this.baseCommand = task rc:${taskrcPath}`. -/
def baseCommand : String := "task rc:" ++ taskrcPath

/-- `this.exportCommand = "export"`. -/
def exportCommand : String := "export"

/-- `new Date(s)` on a truthy export string field, `null` otherwise
(the `twTask.f ? new Date(twTask.f) : null` pattern). -/
def jsDateOf (x : Option String) : Option JsDate :=
  match x with
  | some s => if s = "" then none else some (.ofString s)
  | none => none

/-- `twTask.f ? new Date(twTask.f) : new Date()`. -/
def jsDateOrNow (x : Option String) : JsDate :=
  match x with
  | some s => if s = "" then .current else .ofString s
  | none => .current

/-- `convertTaskwarriorTask`: maps one export record to the application
schema.  `nowMs` models `Date.now()` for the fabricated fallback id. -/
def convertTaskwarriorTask (nowMs : Nat) (tw : TwTask) : TaskRec :=
  { id :=
      match tw.uuid with
      | some u => if u = "" then "tw_" ++ toString nowMs else u
      | none => "tw_" ++ toString nowMs
    description := jsOrStr tw.description ""
    status := jsOrStr tw.status "pending"
    priority := orNull tw.priority
    project := orNull tw.project
    tags := tw.tags
    tagsList := some (match tw.tags with | some l => l | none => [])
    due := jsDateOf tw.due
    wait := jsDateOf tw.waitTs
    scheduled := jsDateOf tw.scheduledTs
    untilDate := jsDateOf tw.untilTs
    annotations :=
      match tw.annotationsField with
      | .arr l => some (String.intercalate "\n" l)
      | .str s => if s = "" then none else some s
      | .absent => none
    created := jsDateOrNow tw.entry
    modified := jsDateOrNow tw.modifiedTs
    completed := jsDateOf tw.endAt
    urgency := orNull tw.urgency }

/-- `components.join(' ')` — JS array join with a single space. -/
def joinSpace : List String → String
  | [] => ""
  | [c] => c
  | c :: rest => c ++ " " ++ joinSpace rest

/-- The `+tag` token list for a tag array. -/
def tagTokens (l : List String) : List String := l.map (fun t => "+" ++ t)

/-- The `due:YYYY-MM-DD` component of a request, when a due date is
present (`dueDate.toISOString().split('T')[0]` keeps only the date part;
the `HH:MM...` half of the ISO rendering never reaches the command). -/
def dueComps (due : Option DateVal) : List String :=
  match due with
  | some d => ["due:" ++ d.datePart]
  | none => []

/-- The `+tag` component of a request (a single space-joined component,
pushed only for a non-empty tag array). -/
def tagComps (tags : Option (List String)) : List String :=
  match tags with
  | some l => if l.length > 0 then [joinSpace (tagTokens l)] else []
  | none => []

/-- The components of the `task ... add ...` invocation built by
`createTaskwarriorCommand`, in source order. -/
def createComponents (task : InsertTask) : List String :=
  [baseCommand ++ " add"] ++
  (if task.description ≠ "" then ["\"" ++ task.description ++ "\""] else []) ++
  (if truthy task.project then ["project:\"" ++ task.project.getD "" ++ "\""] else []) ++
  (if truthy task.priority then ["priority:" ++ task.priority.getD ""] else []) ++
  dueComps task.due ++
  tagComps task.tags ++
  (if truthy task.annotations then ["annotation:\"" ++ task.annotations.getD "" ++ "\""] else [])

/-- `createTaskwarriorCommand`. -/
def createTaskwarriorCommand (task : InsertTask) : String :=
  joinSpace (createComponents task)

/-- The trimmed stdout of one subprocess call, classified the way the
engine consumes it: empty, a string that `JSON.parse` reads as an array of
task records, a string that parses as some other JSON value, or free text
that `JSON.parse` rejects (e.g. `Created task 3`).  The string form of a
JSON export array is assumed not to match the `Created task (\d+)`
pattern. -/
inductive Stdout where
  | blank
  | tasks (ts : List TwTask)
  | jsonOther
  | text (s : String)
deriving DecidableEq, Repr

/-- Outcome of one `execAsync` call: resolution with classified stdout and
raw stderr (exit status zero), or rejection (spawn failure or non-zero
exit — `child_process.exec` rejects in both cases and the `catch` block
cannot tell them apart). -/
inductive CallResult where
  | out (s : Stdout) (stderr : String)
  | thrown (msg : String)
deriving Repr

/-- `true` when the call rejected. -/
def CallResult.isThrown : CallResult → Bool
  | .thrown _ => true
  | .out _ _ => false

/-- The external world of one engine operation: `call k` answers the k-th
subprocess invocation of the operation, `nowMs` is `Date.now()`. -/
structure Env where
  call : Nat → CallResult
  nowMs : Nat

/-- Result bundle of one (sub)operation: its value or thrown error
message, the subprocess invocations and sleeps it performed, the console
entries it emitted, and the invocation counter afterwards. -/
structure OpOut (α : Type) where
  res : Except String α
  evs : List Ev
  logs : List LogEvent
  next : Nat

/-- `true` when an `Except` result is an error. -/
def isErr {α : Type} : Except String α → Bool
  | .error _ => true
  | .ok _ => false

/-- `executeCommand`: prefixes the base command when the raw command does
not start with `task`, logs the full command, runs it, logs stderr via
`console.error` when present, and returns the trimmed stdout; a rejected
call is logged and rethrown wrapped. -/
def executeCommand (env : Env) (k : Nat) (command : String) : OpOut Stdout :=
  let fullCommand :=
    if !strStartsWith command "task" && !strStartsWith command baseCommand then
      baseCommand ++ " " ++ command
    else command
  match env.call k with
  | .thrown m =>
      { res := .error ("Failed to execute Taskwarrior command: " ++ m)
        evs := [.exec fullCommand]
        logs := [.consoleLog ("Executing full command: " ++ fullCommand),
                 .consoleError ("Taskwarrior command failed: " ++ m)]
        next := k + 1 }
  | .out s stderr =>
      { res := .ok s
        evs := [.exec fullCommand]
        logs := [.consoleLog ("Executing full command: " ++ fullCommand)] ++
                (if stderr = "" then [] else
                  [.consoleError ("Taskwarrior stderr: " ++ stderr)])
        next := k + 1 }

/-- The full command `getTask` issues for an identifier. -/
def getTaskCmd (id : String) : String :=
  baseCommand ++ " uuid:" ++ id ++ " " ++ exportCommand

/-- `getTask`: export by `uuid:<id>`; empty output, an empty array or
non-array JSON yield `null`; a non-empty array yields the converted head
record; unparseable output or a failed call is logged and rethrown
wrapped. -/
def getTask (env : Env) (k : Nat) (id : String) : OpOut (Option TaskRec) :=
  let e := executeCommand env k (getTaskCmd id)
  match e.res with
  | .error m =>
      ⟨.error ("Failed to fetch task " ++ id ++ ": " ++ m), e.evs,
        e.logs ++ [.consoleError ("Error fetching task " ++ id ++ ":")], e.next⟩
  | .ok .blank => ⟨.ok none, e.evs, e.logs, e.next⟩
  | .ok (.tasks []) => ⟨.ok none, e.evs, e.logs, e.next⟩
  | .ok (.tasks (tw :: _)) =>
      ⟨.ok (some (convertTaskwarriorTask env.nowMs tw)), e.evs, e.logs, e.next⟩
  | .ok .jsonOther => ⟨.ok none, e.evs, e.logs, e.next⟩
  | .ok (.text _) =>
      ⟨.error ("Failed to fetch task " ++ id ++ ": SyntaxError"), e.evs,
        e.logs ++ [.consoleError ("Error fetching task " ++ id ++ ":")], e.next⟩

/-- The full command `getTasks` issues for a filter. -/
def getTasksCmd (filter : String) : String :=
  baseCommand ++ " " ++ filter ++ " " ++ exportCommand

/-- `getTasks`: export with an optional filter; empty output or non-array
JSON yield the empty list; unparseable output or a failed call is logged
and rethrown wrapped. -/
def getTasks (env : Env) (k : Nat) (filter : String) : OpOut (List TaskRec) :=
  let e := executeCommand env k (getTasksCmd filter)
  match e.res with
  | .error m =>
      ⟨.error ("Failed to fetch tasks: " ++ m), e.evs,
        e.logs ++ [.consoleError "Error fetching tasks:"], e.next⟩
  | .ok .blank => ⟨.ok [], e.evs, e.logs, e.next⟩
  | .ok (.tasks ts) =>
      ⟨.ok (ts.map (convertTaskwarriorTask env.nowMs)), e.evs, e.logs, e.next⟩
  | .ok .jsonOther => ⟨.ok [], e.evs, e.logs, e.next⟩
  | .ok (.text _) =>
      ⟨.error "Failed to fetch tasks: SyntaxError", e.evs,
        e.logs ++ [.consoleError "Error fetching tasks:"], e.next⟩

/-- Longest leading run of decimal digits. -/
def digitRun (cs : List Char) : List Char := cs.takeWhile Char.isDigit

/-- Try to read `Created task (\d+)` anchored at the head of `cs`. -/
def matchCreatedAt (cs : List Char) : Option String :=
  let pat := "Created task ".toList
  if pat.isPrefixOf cs then
    let ds := digitRun (cs.drop pat.length)
    if ds = [] then none else some (String.mk ds)
  else none

/-- Scan for the first (leftmost) occurrence of `Created task (\d+)`. -/
def findCreated : List Char → Option String
  | [] => none
  | c :: rest =>
    match matchCreatedAt (c :: rest) with
    | some s => some s
    | none => findCreated rest

/-- `output.match(/Created task (\d+)/)`: the transient numeric id the
external tool prints on a successful add, when present. -/
def createdIdOf : Stdout → Option String
  | .text s => findCreated s.toList
  | _ => none

/-- The read-back retry loop shared by `createTask` and `updateTask`:
up to `fuel` attempts, each preceded by `delay(200)`, fetching by the
given key; stops early on the first hit; a thrown fetch propagates. -/
def retryFetch (env : Env) (fuel k : Nat) (id : String) : OpOut (Option TaskRec) :=
  match fuel with
  | 0 => ⟨.ok none, [], [], k⟩
  | fuel' + 1 =>
    let g := getTask env k id
    match g.res with
    | .error m => ⟨.error m, .sleep 200 :: g.evs, g.logs, g.next⟩
    | .ok (some t) => ⟨.ok (some t), .sleep 200 :: g.evs, g.logs, g.next⟩
    | .ok none =>
      let r := retryFetch env fuel' g.next id
      ⟨r.res, (.sleep 200 :: g.evs) ++ r.evs, g.logs ++ r.logs, r.next⟩

/-- The match `createTask` uses on the full listing fallback: identical
description and, when the request's project is truthy, identical
project. -/
def createFallbackPred (task : InsertTask) (t : TaskRec) : Bool :=
  t.description == task.description &&
    (!truthy task.project || t.project == task.project)

/-- The minimal in-memory record `createTask` assembles when the retries
and the full-listing fallback both fail: request data plus defaults, under
the transient numeric id.  (No `tagsList`, and no field or log marks the
record as degraded.) -/
def degradedCreateRec (task : InsertTask) (tid : String) : TaskRec :=
  { id := tid
    description := task.description
    annotations := orNull task.annotations
    project := orNull task.project
    priority := orNull task.priority
    due := task.due.map .ofReq
    tags := task.tags
    tagsList := none
    status := "pending"
    wait := none
    scheduled := none
    untilDate := none
    created := .current
    modified := .current
    completed := none
    urgency := none }

/-- `createTask`: synthesize and run the add, extract the transient id
from the output, retry the read-back up to 5 times with 200 ms delays,
fall back to a full listing matched on description/project, and finally
assemble the minimal record; errors are logged and rethrown wrapped. -/
def createTask (env : Env) (task : InsertTask) : OpOut TaskRec :=
  let command := createTaskwarriorCommand task
  let e := executeCommand env 0 command
  match e.res with
  | .error m =>
      ⟨.error ("Failed to create task: " ++ m), e.evs,
        e.logs ++ [.consoleError "Error creating task:"], e.next⟩
  | .ok s =>
    match createdIdOf s with
    | none =>
        ⟨.error "Failed to create task: Error: Failed to create task: Unable to retrieve created task",
          e.evs, e.logs ++ [.consoleError "Error creating task:"], e.next⟩
    | some tid =>
      let r := retryFetch env 5 e.next tid
      match r.res with
      | .error m =>
          ⟨.error ("Failed to create task: " ++ m), e.evs ++ r.evs,
            e.logs ++ r.logs ++ [.consoleError "Error creating task:"], r.next⟩
      | .ok (some t) => ⟨.ok t, e.evs ++ r.evs, e.logs ++ r.logs, r.next⟩
      | .ok none =>
        let a := getTasks env r.next ""
        match a.res with
        | .error m =>
            ⟨.error ("Failed to create task: " ++ m), e.evs ++ r.evs ++ a.evs,
              e.logs ++ r.logs ++ a.logs ++ [.consoleError "Error creating task:"], a.next⟩
        | .ok all =>
          match all.find? (createFallbackPred task) with
          | some ft => ⟨.ok ft, e.evs ++ r.evs ++ a.evs, e.logs ++ r.logs ++ a.logs, a.next⟩
          | none =>
              ⟨.ok (degradedCreateRec task tid), e.evs ++ r.evs ++ a.evs,
                e.logs ++ r.logs ++ a.logs, a.next⟩

/-- The head component of the modify invocation: replaced by the dedicated
`done`/`delete` sub-command exactly when the (truthy) status is
`completed`/`deleted`. -/
def updateHead (id : String) (updates : UpdateReq) : String :=
  let modifyHead := baseCommand ++ " uuid:" ++ id ++ " modify"
  match updates.status with
  | some s =>
      if s = "" then modifyHead
      else if s = "completed" then baseCommand ++ " uuid:" ++ id ++ " done"
      else if s = "deleted" then baseCommand ++ " uuid:" ++ id ++ " delete"
      else modifyHead
  | none => modifyHead

/-- The generic `status:<value>` component, pushed only for a truthy
status other than `completed`/`deleted`. -/
def statusComps (updates : UpdateReq) : List String :=
  match updates.status with
  | some s =>
      if s = "" then []
      else if s = "completed" then []
      else if s = "deleted" then []
      else ["status:" ++ s]
  | none => []

/-- The non-head components of the modify invocation, in source order. -/
def updateRest (updates : UpdateReq) : List String :=
  (if truthy updates.description then
    ["description:\"" ++ updates.description.getD "" ++ "\""] else []) ++
  (if truthy updates.project then
    ["project:\"" ++ updates.project.getD "" ++ "\""] else []) ++
  (if truthy updates.priority then
    ["priority:" ++ updates.priority.getD ""] else []) ++
  dueComps updates.due ++
  statusComps updates ++
  tagComps updates.tags ++
  (if truthy updates.annotations then
    ["annotation:\"" ++ updates.annotations.getD "" ++ "\""] else [])

/-- The main invocation `updateTask` runs (`components.join(' ')`). -/
def updateMainCmd (id : String) (updates : UpdateReq) : String :=
  joinSpace (updateHead id updates :: updateRest updates)

/-- The clear-all-tags invocation `updateTask` runs first when the request
carries a tag array. -/
def clearTagsCmd (id : String) : String :=
  baseCommand ++ " uuid:" ++ id ++ " modify -ALLTAGS"

/-- The minimal record `updateTask` assembles when the retries and the
full-listing fallback both fail. -/
def degradedUpdateRec (id : String) (updates : UpdateReq) : TaskRec :=
  { id := id
    description := jsOrStr updates.description "Unknown task"
    annotations := orNull updates.annotations
    project := orNull updates.project
    priority := orNull updates.priority
    due := updates.due.map .ofReq
    tags := updates.tags
    tagsList := none
    status := jsOrStr updates.status "pending"
    wait := none
    scheduled := none
    untilDate := none
    created := .current
    modified := .current
    completed := none
    urgency := none }

/-- The part of `updateTask` inside its `try` block: run the main
invocation, retry the read-back keyed on the stable identifier, fall back
to a full listing matched on the identifier, and finally assemble the
minimal record (after a `console.warn`). -/
def updateTaskMain (env : Env) (k : Nat) (id : String) (updates : UpdateReq) :
    OpOut (Option TaskRec) :=
  let command := updateMainCmd id updates
  let e := executeCommand env k command
  match e.res with
  | .error m =>
      ⟨.error ("Failed to update task " ++ id ++ ": " ++ m), e.evs,
        e.logs ++ [.consoleError ("Error updating task " ++ id ++ ":")], e.next⟩
  | .ok _ =>
    let r := retryFetch env 5 e.next id
    match r.res with
    | .error m =>
        ⟨.error ("Failed to update task " ++ id ++ ": " ++ m), e.evs ++ r.evs,
          e.logs ++ r.logs ++ [.consoleError ("Error updating task " ++ id ++ ":")], r.next⟩
    | .ok (some t) => ⟨.ok (some t), e.evs ++ r.evs, e.logs ++ r.logs, r.next⟩
    | .ok none =>
      let warn := LogEvent.consoleWarn
        ("Task " ++ id ++ " was updated but could not be retrieved after update")
      let a := getTasks env r.next ""
      match a.res with
      | .error m =>
          ⟨.error ("Failed to update task " ++ id ++ ": " ++ m),
            e.evs ++ r.evs ++ a.evs,
            e.logs ++ r.logs ++ [warn] ++ a.logs ++
              [.consoleError ("Error updating task " ++ id ++ ":")], a.next⟩
      | .ok all =>
        match all.find? (fun t => t.id == id) with
        | some mt =>
            ⟨.ok (some mt), e.evs ++ r.evs ++ a.evs,
              e.logs ++ r.logs ++ [warn] ++ a.logs, a.next⟩
        | none =>
            ⟨.ok (some (degradedUpdateRec id updates)), e.evs ++ r.evs ++ a.evs,
              e.logs ++ r.logs ++ [warn] ++ a.logs, a.next⟩

/-- `updateTask`: when the request carries a tag array the engine first
runs the clear-all-tags invocation (outside the `try` block — its failure
propagates unwrapped), then the main invocation with the `+tag` tokens
appended, then reconciles. -/
def updateTask (env : Env) (id : String) (updates : UpdateReq) :
    OpOut (Option TaskRec) :=
  match updates.tags with
  | some _ =>
    let c := executeCommand env 0 (clearTagsCmd id)
    match c.res with
    | .error m => ⟨.error m, c.evs, c.logs, c.next⟩
    | .ok _ =>
      let r := updateTaskMain env c.next id updates
      ⟨r.res, c.evs ++ r.evs, c.logs ++ r.logs, r.next⟩
  | none => updateTaskMain env 0 id updates

/-!  Tag semantics of the external tool, for the clear-then-apply claim. -/

/-- A tag-affecting token of a synthesized invocation. -/
inductive TagOp where
  | clearAll
  | add (t : String)
deriving DecidableEq, Repr

/-- Modelled from the spec: the external tool's tag primitives (the tool
itself is outside this repository).  `-ALLTAGS` removes every tag of the
task; each `+t` token adds `t` to its tag set; there is no atomic
tag-replace primitive. -/
def runTagOps (prior : List String) : List TagOp → List String
  | [] => prior
  | .clearAll :: rest => runTagOps [] rest
  | .add t :: rest => runTagOps (if t ∈ prior then prior else prior ++ [t]) rest

/-- The space-separated tokens of a command string. -/
def cmdTokens (cmd : String) : List String :=
  (cmd.toList.splitOn ' ').map String.mk

/-- The tag-affecting tokens of a command string: split on spaces, keep
`-ALLTAGS` and the `+tag` tokens. -/
def tagOpsOfCmd (cmd : String) : List TagOp :=
  (cmdTokens cmd).filterMap fun tok =>
    if tok = "-ALLTAGS" then some .clearAll
    else if strStartsWith tok "+" then some (.add (substrFrom tok 1)) else none

/-- The tag-affecting tokens of the two invocations `updateTask`
synthesizes for a request carrying a tag array: the clear invocation
contributes its single `-ALLTAGS` token, the main invocation contributes
exactly the `+tag` tokens of its `tagStr` component. -/
def updateTagOps (updates : UpdateReq) : List TagOp :=
  match updates.tags with
  | some l => .clearAll :: l.map .add
  | none => []

/-!  The server-side terminal session bridge of `src/server/routes.ts`. -/

/-- Per-write stdin payloads of the bridge, with the delay (ms) before
each write: the `add <description>` case is split into the `add` trigger
line now and the description line after the fixed 100 ms timeout; every
other command is forwarded as a single line. -/
def bridgeWrites (command : String) : List (Nat × String) :=
  if containsChar command ' ' then
    if strStartsWith command "add " then
      [(0, "add" ++ "\n"), (100, substrFrom command 4 ++ "\n")]
    else [(0, command ++ "\n")]
  else [(0, command ++ "\n")]

/-- One client→server frame, after JSON decoding (or its failure). -/
inductive ClientMsg where
  | command (cmd : String)
  | parse (text : String)
  | malformed
deriving DecidableEq, Repr

/-- An observable event of one terminal session. -/
inductive SessEvent where
  | stdoutData (s : String)
  | stderrData (s : String)
  | procClose (code : Nat)
  | wsMessage (m : ClientMsg)
  | wsClose
deriving DecidableEq, Repr

/-- An action the session handlers perform. -/
inductive Action where
  | sendOutput (s : String)
  | sendError (s : String)
  | sendCommand (s : String)
  | stdinWrite (delayMs : Nat) (line : String)
  | closeWs
  | killProc
deriving DecidableEq, Repr

/-- `true` for the envelopes sent to the client over the channel. -/
def Action.isEnvelope : Action → Bool
  | .sendOutput _ => true
  | .sendError _ => true
  | .sendCommand _ => true
  | _ => false

/-- The per-session state: the `terminated` flag of the connection
handler. -/
structure SessState where
  terminated : Bool
deriving DecidableEq, Repr

/-- The farewell text sent when the subprocess exit is observed first. -/
def farewellMsg : String :=
  "\nTaskwarrior shell session ended. Refresh to start a new session."

/-- One step of the session handlers, given the natural-language parser
(`openai.parseCommand`) as an oracle: stdout/stderr chunks are forwarded
as `output`/`error` envelopes while not terminated; subprocess exit sends
the farewell envelope, sets `terminated` and closes the channel; client
frames are ignored once terminated, otherwise shaped onto stdin
(`bridgeWrites`) or answered with a suggested command; a malformed frame
is answered with an error envelope; transport close sets `terminated` and
kills the subprocess. -/
def sessStep (po : String → String) (st : SessState) :
    SessEvent → SessState × List Action
  | .stdoutData s => (st, if st.terminated then [] else [.sendOutput s])
  | .stderrData s => (st, if st.terminated then [] else [.sendError s])
  | .procClose _ =>
      if st.terminated then (st, [])
      else (⟨true⟩, [.sendOutput farewellMsg, .closeWs])
  | .wsMessage m =>
      if st.terminated then (st, [])
      else
        match m with
        | .command cmd => (st, (bridgeWrites cmd).map fun w => .stdinWrite w.1 w.2)
        | .parse text => (st, [.sendCommand (po text)])
        | .malformed => (st, [.sendError "Failed to process command"])
  | .wsClose =>
      if st.terminated then (st, []) else (⟨true⟩, [.killProc])

/-!  The client line editor of the reconnecting `Terminal.tsx`. -/

/-- The client's reconnect retry ceiling (`maxReconnectAttempts`). -/
def maxReconnectAttempts : Nat := 5

/-- The client's fixed reconnect delay in ms (`reconnectDelay`). -/
def reconnectDelay : Nat := 2000

/-- The fixed prompt the client renders (`tasksh> `). -/
def clientPrompt : String := "tasksh> "

/-- The client editor state: the mutable input buffer, the append-only
history with its navigation index, and whether a socket is currently
stored open in state (`ws && ws.readyState === 1`; during an outage the
`onclose` handler has set it to `null`). -/
structure TermState where
  inputBuffer : String
  history : List String
  historyIndex : Int
  wsOpen : Bool
deriving DecidableEq, Repr

/-- A display or transport action of the client editor. -/
inductive TermAction where
  | sendJson (cmd : String)
  | writeLine (s : String)
  | writeText (s : String)
deriving DecidableEq, Repr

/-- `true` for a frame actually sent over the transport. -/
def TermAction.isSend : TermAction → Bool
  | .sendJson _ => true
  | _ => false

/-- The Enter-key handler: trim the buffer; always emit a new line; a
non-empty command is appended to history and either sent as a `command`
frame (socket open) or answered with an inline error and a fresh prompt
(socket absent); the buffer is cleared unconditionally at the end. -/
def enterKey (st : TermState) : TermState × List TermAction :=
  let command := jsTrim st.inputBuffer
  if command ≠ "" then
    let acts :=
      if st.wsOpen then
        [TermAction.writeLine "", .sendJson command]
      else
        [TermAction.writeLine "",
         .writeLine "\x1B[1;31mWebSocket not connected. Try refreshing the page.\x1B[0m",
         .writeText clientPrompt]
    ({ st with inputBuffer := "", history := st.history ++ [command],
               historyIndex := -1 }, acts)
  else
    ({ st with inputBuffer := "" },
      [TermAction.writeLine "", .writeText clientPrompt])

/-- `l` repeated `n` times, concatenated. -/
def repeatList {α : Type} : Nat → List α → List α
  | 0, _ => []
  | n + 1, l => l ++ repeatList n l

/-- A subprocess response the engine's read-back treats as a miss
(`null` from `getTask`): empty output, an empty export array, or
non-array JSON. -/
def readMiss : CallResult → Bool
  | .out .blank _ => true
  | .out (.tasks []) _ => true
  | .out .jsonOther _ => true
  | _ => false

/-! ## Concrete scenario environments and requests -/

/-- The environment used for the date-stripping counterexample: the add
reports a transient id and the first read-back succeeds. -/
def envDates : Env :=
  ⟨fun k => if k = 0 then .out (.text "Created task 3") ""
            else .out (.tasks [{ uuid := some "3", description := some "Buy milk" }]) "", 0⟩

/-- A create request whose due date carries a 14:30 time-of-day. -/
def reqTimeA : InsertTask :=
  { description := "Buy milk", due := some ⟨"2025-01-15", "14:30:00.000Z"⟩ }

/-- The same create request at midnight. -/
def reqTimeB : InsertTask :=
  { description := "Buy milk", due := some ⟨"2025-01-15", "00:00:00.000Z"⟩ }

/-- The environment of the stderr-advisory scenario: exit status zero
with non-empty stderr. -/
def envAdvisory : Env := ⟨fun _ => .out (.text "ok") "advisory text", 0⟩

/-- The environment of the C9 counterexample: the export record carries a
uuid but no description. -/
def envNoDesc : Env :=
  ⟨fun _ => .out (.tasks [{ uuid := some "u-1" }]) "", 0⟩

/-- The environment of the total non-visibility scenario: the add reports
transient id 3, every read-back misses, the fallback listing is empty. -/
def envDegraded : Env :=
  ⟨fun k => if k = 0 then .out (.text "Created task 3") ""
            else if k = 6 then .out (.tasks []) "" else .out .blank "", 5⟩

/-- The environments of the degraded-versus-confirmed comparison: in
`envDegraded` the record is assembled by the fallback, in `envConfirmed`
the first read-back returns an export record chosen to convert to the
very same value. -/
def envConfirmed : Env :=
  ⟨fun k => if k = 0 then .out (.text "Created task 3") ""
            else .out (.tasks [{ uuid := some "3", description := some "Buy milk",
                                 project := some "Home" }]) "", 5⟩

/-- An update request carrying only a new tag set. -/
def tagOnlyUpdate (l : List String) : UpdateReq := { tags := some l }

/-! ## Helper lemmas -/

theorem strStartsWith_append (a b p : String) (h : strStartsWith a p = true) :
    strStartsWith (a ++ b) p = true := by
  simp only [strStartsWith, String.toList, List.isPrefixOf_iff_prefix,
    String.data_append] at h ⊢
  exact h.trans (List.prefix_append _ _)

theorem strStartsWith_joinSpace (c : String) (t : List String) (p : String)
    (hp : strStartsWith c p = true) :
    strStartsWith (joinSpace (c :: t)) p = true := by
  cases t with
  | nil => simpa [joinSpace] using hp
  | cons d t' =>
      have h1 := strStartsWith_append c " " p hp
      have h2 := strStartsWith_append (c ++ " ") (joinSpace (d :: t')) p h1
      simpa [joinSpace] using h2

theorem createCmd_startsWith (task : InsertTask) :
    strStartsWith (createTaskwarriorCommand task) "task" = true := by
  have : createComponents task = (baseCommand ++ " add") ::
      ((if task.description ≠ "" then ["\"" ++ task.description ++ "\""] else []) ++
       (if truthy task.project then ["project:\"" ++ task.project.getD "" ++ "\""] else []) ++
       (if truthy task.priority then ["priority:" ++ task.priority.getD ""] else []) ++
       dueComps task.due ++ tagComps task.tags ++
       (if truthy task.annotations then ["annotation:\"" ++ task.annotations.getD "" ++ "\""] else [])) := by
    simp [createComponents]
  rw [createTaskwarriorCommand, this]
  exact strStartsWith_joinSpace _ _ _
    (strStartsWith_append baseCommand " add" "task" (by decide))

theorem getTaskCmd_startsWith (id : String) :
    strStartsWith (getTaskCmd id) "task" = true := by
  have h1 : strStartsWith (baseCommand ++ " uuid:") "task" = true := by decide
  exact strStartsWith_append _ _ _ (strStartsWith_append _ _ _
    (strStartsWith_append _ _ _ h1))

theorem getTasksCmd_startsWith (filter : String) :
    strStartsWith (getTasksCmd filter) "task" = true := by
  have h1 : strStartsWith (baseCommand ++ " ") "task" = true := by decide
  exact strStartsWith_append _ _ _ (strStartsWith_append _ _ _
    (strStartsWith_append _ _ _ h1))

theorem clearTagsCmd_startsWith (id : String) :
    strStartsWith (clearTagsCmd id) "task" = true := by
  have h1 : strStartsWith (baseCommand ++ " uuid:") "task" = true := by decide
  exact strStartsWith_append _ _ _ (strStartsWith_append _ _ _ h1)

theorem updateHead_startsWith (id : String) (u : UpdateReq) :
    strStartsWith (updateHead id u) "task" = true := by
  have h1 : strStartsWith (baseCommand ++ " uuid:") "task" = true := by decide
  have h2 : ∀ z : String,
      strStartsWith (baseCommand ++ " uuid:" ++ id ++ z) "task" = true :=
    fun z => strStartsWith_append _ _ _ (strStartsWith_append _ _ _ h1)
  unfold updateHead
  cases u.status with
  | none => exact h2 " modify"
  | some s =>
      by_cases hs1 : s = "" <;> by_cases hs2 : s = "completed" <;>
        by_cases hs3 : s = "deleted" <;>
          simp only [hs1, hs2, hs3, if_true, if_false, reduceIte] <;>
            first
              | exact h2 " modify"
              | exact h2 " done"
              | exact h2 " delete"

theorem updateMainCmd_startsWith (id : String) (u : UpdateReq) :
    strStartsWith (updateMainCmd id u) "task" = true :=
  strStartsWith_joinSpace _ _ _ (updateHead_startsWith id u)

theorem executeCommand_evs (env : Env) (k : Nat) (cmd : String)
    (hst : strStartsWith cmd "task" = true) :
    (executeCommand env k cmd).evs = [.exec cmd] := by
  cases hc : env.call k <;> simp [executeCommand, hc, hst]

theorem executeCommand_next (env : Env) (k : Nat) (cmd : String) :
    (executeCommand env k cmd).next = k + 1 := by
  cases hc : env.call k <;> simp [executeCommand, hc]

theorem getTask_miss (env : Env) (k : Nat) (id : String)
    (h : readMiss (env.call k) = true) :
    (getTask env k id).res = .ok none ∧ (getTask env k id).next = k + 1 := by
  cases hc : env.call k with
  | thrown m => rw [hc] at h; simp [readMiss] at h
  | out s e =>
      rw [hc] at h
      cases s with
      | blank => simp [getTask, executeCommand, hc]
      | tasks ts =>
          cases ts with
          | nil => simp [getTask, executeCommand, hc]
          | cons tw r => simp [readMiss] at h
      | jsonOther => simp [getTask, executeCommand, hc]
      | text s' => simp [readMiss] at h

theorem getTask_evs (env : Env) (k : Nat) (id : String) :
    (getTask env k id).evs = [.exec (getTaskCmd id)] := by
  have hst := getTaskCmd_startsWith id
  cases hc : env.call k with
  | thrown m => simp [getTask, executeCommand, hc, hst]
  | out s e =>
      cases s with
      | blank => simp [getTask, executeCommand, hc, hst]
      | tasks ts => cases ts <;> simp [getTask, executeCommand, hc, hst]
      | jsonOther => simp [getTask, executeCommand, hc, hst]
      | text s' => simp [getTask, executeCommand, hc, hst]

theorem retryFetch_miss (env : Env) (id : String) (fuel : Nat) :
    ∀ k, (∀ j, j < fuel → readMiss (env.call (k + j)) = true) →
      (retryFetch env fuel k id).res = .ok none ∧
      (retryFetch env fuel k id).next = k + fuel ∧
      (retryFetch env fuel k id).evs =
        repeatList fuel [Ev.sleep 200, Ev.exec (getTaskCmd id)] := by
  induction fuel with
  | zero => intro k h; simp [retryFetch, repeatList]
  | succ n ih =>
      intro k h
      have h0 : readMiss (env.call k) = true := by
        simpa using h 0 n.succ_pos
      obtain ⟨hres, hnext⟩ := getTask_miss env k id h0
      have hevs := getTask_evs env k id
      obtain ⟨ir, inx, iev⟩ := ih (k + 1) (fun j hj => by
        have hh := h (j + 1) (Nat.succ_lt_succ hj)
        have harith : k + (j + 1) = k + 1 + j := by omega
        rwa [harith] at hh)
      refine ⟨?_, ?_, ?_⟩ <;>
        simp [retryFetch, hres, hnext, hevs, ir, inx, iev, repeatList] <;>
          try omega

theorem digitRun_all (cs : List Char) : ((digitRun cs).all Char.isDigit) = true := by
  induction cs with
  | nil => rfl
  | cons c rest ih =>
      unfold digitRun at ih ⊢
      cases hc : c.isDigit <;> simp [List.takeWhile_cons, hc, ih]

theorem mk_ne_empty_of_ne_nil {cs : List Char} (h : cs ≠ []) :
    String.mk cs ≠ "" := by
  intro hcontra
  exact h (congrArg String.data hcontra)

theorem findCreated_digits {cs : List Char} {t : String}
    (h : findCreated cs = some t) :
    t ≠ "" ∧ (t.toList.all Char.isDigit) = true := by
  induction cs with
  | nil => simp [findCreated] at h
  | cons c rest ih =>
      unfold findCreated at h
      cases hm : matchCreatedAt (c :: rest) with
      | some s' =>
          rw [hm] at h
          cases h
          unfold matchCreatedAt at hm
          by_cases hp : ("Created task ".toList).isPrefixOf (c :: rest) = true
          · rw [if_pos hp] at hm
            by_cases hd : digitRun ((c :: rest).drop "Created task ".toList.length) = []
            · rw [if_pos hd] at hm; cases hm
            · rw [if_neg hd] at hm
              cases hm
              exact ⟨mk_ne_empty_of_ne_nil hd, digitRun_all _⟩
          · rw [if_neg (by simpa using hp)] at hm; cases hm
      | none => rw [hm] at h; exact ih h

theorem createdIdOf_digits {s : Stdout} {t : String}
    (h : createdIdOf s = some t) :
    t ≠ "" ∧ (t.toList.all Char.isDigit) = true := by
  cases s with
  | text s' => exact findCreated_digits h
  | blank => simp [createdIdOf] at h
  | tasks ts => simp [createdIdOf] at h
  | jsonOther => simp [createdIdOf] at h

theorem getTask_hit (env : Env) (k : Nat) {tw : TwTask} {rest : List TwTask}
    {e : String} (id : String) (h : env.call k = .out (.tasks (tw :: rest)) e) :
    (getTask env k id).res = .ok (some (convertTaskwarriorTask env.nowMs tw)) ∧
    (getTask env k id).next = k + 1 := by
  constructor <;> simp [getTask, executeCommand, h]

theorem retryFetch_hit (env : Env) (k : Nat) (id : String) {t : TaskRec}
    (fuel : Nat) (h : (getTask env k id).res = .ok (some t)) :
    (retryFetch env (fuel + 1) k id).res = .ok t ∧
    (retryFetch env (fuel + 1) k id).evs = .sleep 200 :: (getTask env k id).evs := by
  constructor <;> simp [retryFetch, h]

theorem getTasks_out (env : Env) (k : Nat) {ts : List TwTask} {e : String}
    (filter : String) (h : env.call k = .out (.tasks ts) e) :
    (getTasks env k filter).res = .ok (ts.map (convertTaskwarriorTask env.nowMs)) ∧
    (getTasks env k filter).next = k + 1 ∧
    (getTasks env k filter).evs = [.exec (getTasksCmd filter)] := by
  refine ⟨?_, ?_, ?_⟩ <;>
    simp [getTasks, executeCommand, h, getTasksCmd_startsWith filter]

theorem updateTaskMain_evs_head (env : Env) (k : Nat) (id : String)
    (u : UpdateReq) :
    (updateTaskMain env k id u).evs.head? =
      some (.exec (updateMainCmd id u)) := by
  have hevs := executeCommand_evs env k (updateMainCmd id u)
    (updateMainCmd_startsWith id u)
  simp only [updateTaskMain]
  repeat' split
  all_goals simp [hevs]

/-! ## Theorems -/

/-- C1 (amended): for a well-formed create request (non-empty
description, no empty-string project) whose write output carries a
transient numeric id, when all 5 read-back attempts miss and the
full-listing fallback finds no record with identical description (and
project, when specified), `createTask` returns the best-effort record
assembled from the request payload: description and project equal the
request's, the id is exactly the transient numeric id (never a fabricated
stable identifier) — but the record carries no degraded flag and no
reconciliation-degraded condition is logged (see the counterexample). -/
theorem claim1_degraded_create (env : Env) (task : InsertTask)
    (s0 : Stdout) (e0 : String) (tid : String) (ts : List TwTask) (e6 : String)
    (hwf : task.description ≠ "") (hproj : task.project ≠ some "")
    (h0 : env.call 0 = .out s0 e0)
    (hid : createdIdOf s0 = some tid)
    (hmiss : ∀ j, j < 5 → readMiss (env.call (1 + j)) = true)
    (h6 : env.call 6 = .out (.tasks ts) e6)
    (hfind : (ts.map (convertTaskwarriorTask env.nowMs)).find?
        (createFallbackPred task) = none) :
    (createTask env task).res = .ok (degradedCreateRec task tid) ∧
    (degradedCreateRec task tid).description = task.description ∧
    (degradedCreateRec task tid).project = task.project ∧
    (degradedCreateRec task tid).id = tid ∧
    tid ≠ "" ∧ (tid.toList.all Char.isDigit) = true := by
  obtain ⟨hr5, hn5, _⟩ := retryFetch_miss env tid 5 1 hmiss
  have hgt : (getTasks env 6 "").res =
      .ok (ts.map (convertTaskwarriorTask env.nowMs)) := by
    simp [getTasks, executeCommand, h6]
  refine ⟨?_, rfl, ?_, rfl, (createdIdOf_digits hid).1, (createdIdOf_digits hid).2⟩
  · simp [createTask, executeCommand, h0, hid, hn5, hr5, hgt, hfind]
  · cases hp : task.project with
    | none => simp [degradedCreateRec, orNull, truthy, hp]
    | some p =>
        have hpne : p ≠ "" := fun hcontra => hproj (by rw [hp, hcontra])
        simp [degradedCreateRec, orNull, truthy, hp, hpne]

/-- C1 witness at concrete inputs. -/
theorem claim1_witness :
    (createTask envDegraded { description := "Buy milk", project := some "Home" }).res =
      .ok (degradedCreateRec { description := "Buy milk", project := some "Home" } "3") ∧
    (degradedCreateRec { description := "Buy milk", project := some "Home" } "3").description
      = "Buy milk" ∧
    (degradedCreateRec { description := "Buy milk", project := some "Home" } "3").project
      = some "Home" ∧
    (degradedCreateRec { description := "Buy milk", project := some "Home" } "3").id = "3" ∧
    ("3" : String) ≠ "" ∧ ("3".toList.all Char.isDigit) = true := by
  have h := claim1_degraded_create envDegraded
    { description := "Buy milk", project := some "Home" }
    (.text "Created task 3") "" "3" [] ""
    (by decide) (by decide) rfl (by decide) (by decide) rfl rfl
  exact h

/-- C1 counterexample: a run that ends in the degraded fallback returns
the plain request-payload assembly and emits only routine `console.log`
entries — no reconciliation-degraded condition is ever logged — and the
record agrees with a confirmed-read-back record on every schema field,
differing only in the accidental absence of the `tagsList` helper (the
fallback literal omits it); no field of the result marks it as degraded,
refuting "carries the degraded flag". -/
theorem claim1_counterexample :
    (createTask envDegraded { description := "Buy milk", project := some "Home" }).res =
      .ok (degradedCreateRec { description := "Buy milk", project := some "Home" } "3") ∧
    ((createTask envDegraded
        { description := "Buy milk", project := some "Home" }).logs.all
      LogEvent.isInfo) = true ∧
    (createTask envConfirmed { description := "Buy milk", project := some "Home" }).res =
      .ok (convertTaskwarriorTask 5
        { uuid := some "3", description := some "Buy milk", project := some "Home" }) ∧
    degradedCreateRec { description := "Buy milk", project := some "Home" } "3" =
      { convertTaskwarriorTask 5
          { uuid := some "3", description := some "Buy milk", project := some "Home" } with
        tagsList := none } := by
  decide

/-- C2: after a write the engine reads the affected record back in a loop
of at most 5 attempts, a fixed 200 ms sleep before/between attempts,
keyed on the transient id extracted from the write output (creates) or
the stable identifier (updates); scenario A shows the full create trace
when every attempt misses — exactly 5 keyed attempts, each preceded by
one sleep, then one full-listing invocation whose result is matched on
identical description plus, when specified, identical project; scenario B
shows the loop stopping at the first hit; scenario C is the update
analogue with fallback matching on the identical identifier. -/
theorem claim2_retry_reconciliation
    (envA envB envC : Env) (task : InsertTask) (id : String) (updates : UpdateReq)
    (sA : Stdout) (eA : String) (tidA : String) (tsA : List TwTask) (eA6 : String)
    (sB : Stdout) (eB : String) (tidB : String) (twB : TwTask) (rB : List TwTask)
    (eB1 : String)
    (sC : Stdout) (eC : String) (tsC : List TwTask) (eC6 : String)
    (hA0 : envA.call 0 = .out sA eA) (hAid : createdIdOf sA = some tidA)
    (hAmiss : ∀ j, j < 5 → readMiss (envA.call (1 + j)) = true)
    (hA6 : envA.call 6 = .out (.tasks tsA) eA6)
    (hB0 : envB.call 0 = .out sB eB) (hBid : createdIdOf sB = some tidB)
    (hB1 : envB.call 1 = .out (.tasks (twB :: rB)) eB1)
    (hCtags : updates.tags = none)
    (hC0 : envC.call 0 = .out sC eC)
    (hCmiss : ∀ j, j < 5 → readMiss (envC.call (1 + j)) = true)
    (hC6 : envC.call 6 = .out (.tasks tsC) eC6) :
    ((createTask envA task).evs =
      .exec (createTaskwarriorCommand task) ::
        (repeatList 5 [Ev.sleep 200, Ev.exec (getTaskCmd tidA)] ++
          [Ev.exec (getTasksCmd "")]) ∧
     (createTask envA task).res =
       (match (tsA.map (convertTaskwarriorTask envA.nowMs)).find?
           (createFallbackPred task) with
        | some ft => .ok ft
        | none => .ok (degradedCreateRec task tidA))) ∧
    ((createTask envB task).evs =
      [.exec (createTaskwarriorCommand task), .sleep 200,
       .exec (getTaskCmd tidB)] ∧
     (createTask envB task).res =
       .ok (convertTaskwarriorTask envB.nowMs twB)) ∧
    ((updateTask envC id updates).evs =
      .exec (updateMainCmd id updates) ::
        (repeatList 5 [Ev.sleep 200, Ev.exec (getTaskCmd id)] ++
          [Ev.exec (getTasksCmd "")]) ∧
     (updateTask envC id updates).res =
       (match (tsC.map (convertTaskwarriorTask envC.nowMs)).find?
           (fun t => t.id == id) with
        | some mt => .ok (some mt)
        | none => .ok (some (degradedUpdateRec id updates)))) := by
  obtain ⟨hrA, hnA, hevA⟩ := retryFetch_miss envA tidA 5 1 hAmiss
  obtain ⟨hgrA, hgnA, hgeA⟩ := getTasks_out envA 6 "" hA6
  obtain ⟨hrC, hnC, hevC⟩ := retryFetch_miss envC id 5 1 hCmiss
  obtain ⟨hgrC, hgnC, hgeC⟩ := getTasks_out envC 6 "" hC6
  have hstA := createCmd_startsWith task
  have hstU := updateMainCmd_startsWith id updates
  refine ⟨⟨?_, ?_⟩, ⟨?_, ?_⟩, ⟨?_, ?_⟩⟩
  · cases hf : (tsA.map (convertTaskwarriorTask envA.nowMs)).find?
        (createFallbackPred task) <;>
      simp [createTask, executeCommand, hA0, hAid, hrA, hnA, hevA, hgrA,
        hgeA, hf, hstA]
  · cases hf : (tsA.map (convertTaskwarriorTask envA.nowMs)).find?
        (createFallbackPred task) <;>
      simp [createTask, executeCommand, hA0, hAid, hrA, hnA, hevA, hgrA,
        hgeA, hf, hstA]
  · obtain ⟨hbr, hbn⟩ := getTask_hit envB 1 tidB hB1
    obtain ⟨hfr, hfe⟩ := retryFetch_hit envB 1 tidB 4 hbr
    have hge := getTask_evs envB 1 tidB
    simp [createTask, executeCommand, hB0, hBid, hstA,
      show (4:Nat) + 1 = 5 from rfl] at hfr hfe ⊢
    simp [hfr, hfe, hge]
  · obtain ⟨hbr, hbn⟩ := getTask_hit envB 1 tidB hB1
    obtain ⟨hfr, hfe⟩ := retryFetch_hit envB 1 tidB 4 hbr
    simp [show (4:Nat) + 1 = 5 from rfl] at hfr hfe
    simp [createTask, executeCommand, hB0, hBid, hstA, hfr]
  · cases hf : (tsC.map (convertTaskwarriorTask envC.nowMs)).find?
        (fun t => t.id == id) <;>
      simp [updateTask, updateTaskMain, executeCommand, hCtags, hC0, hrC,
        hnC, hevC, hgrC, hgeC, hf, hstU]
  · cases hf : (tsC.map (convertTaskwarriorTask envC.nowMs)).find?
        (fun t => t.id == id) <;>
      simp [updateTask, updateTaskMain, executeCommand, hCtags, hC0, hrC,
        hnC, hevC, hgrC, hgeC, hf, hstU]

/-- C2 witness at concrete inputs: `envDegraded` exercises the
all-misses create, `envConfirmed` the first-hit create, and `envDegraded`
again the all-misses update. -/
theorem claim2_witness :
    ((createTask envDegraded { description := "Buy milk" }).evs =
      .exec (createTaskwarriorCommand { description := "Buy milk" }) ::
        (repeatList 5 [Ev.sleep 200, Ev.exec (getTaskCmd "3")] ++
          [Ev.exec (getTasksCmd "")]) ∧
     (createTask envDegraded { description := "Buy milk" }).res =
       .ok (degradedCreateRec { description := "Buy milk" } "3")) ∧
    ((createTask envConfirmed { description := "Buy milk" }).evs =
      [.exec (createTaskwarriorCommand { description := "Buy milk" }), .sleep 200,
       .exec (getTaskCmd "3")] ∧
     (createTask envConfirmed { description := "Buy milk" }).res =
       .ok (convertTaskwarriorTask 5
         { uuid := some "3", description := some "Buy milk", project := some "Home" })) ∧
    ((updateTask envDegraded "42" { description := some "New" }).evs =
      .exec (updateMainCmd "42" { description := some "New" }) ::
        (repeatList 5 [Ev.sleep 200, Ev.exec (getTaskCmd "42")] ++
          [Ev.exec (getTasksCmd "")]) ∧
     (updateTask envDegraded "42" { description := some "New" }).res =
       .ok (some (degradedUpdateRec "42" { description := some "New" }))) := by
  have h := claim2_retry_reconciliation envDegraded envConfirmed envDegraded
    { description := "Buy milk" } "42" { description := some "New" }
    (.text "Created task 3") "" "3" [] ""
    (.text "Created task 3") "" "3"
    { uuid := some "3", description := some "Buy milk", project := some "Home" } [] ""
    (.text "Created task 3") "" [] ""
    rfl (by decide) (by decide) rfl
    rfl (by decide) rfl
    rfl rfl (by decide) rfl
  exact h

theorem runTagOps_adds (t : String) : ∀ (l acc : List String),
    (t ∈ runTagOps acc (l.map .add) ↔ t ∈ acc ∨ t ∈ l) := by
  intro l
  induction l with
  | nil => intro acc; simp [runTagOps]
  | cons a l' ih =>
      intro acc
      simp only [List.map_cons, runTagOps]
      by_cases ha : a ∈ acc
      · rw [if_pos ha, ih]
        constructor
        · rintro (h | h)
          · exact Or.inl h
          · exact Or.inr (List.mem_cons_of_mem a h)
        · rintro (h | h)
          · exact Or.inl h
          · rcases List.mem_cons.mp h with h | h
            · subst h; exact Or.inl ha
            · exact Or.inr h
      · rw [if_neg ha, ih]
        simp only [List.mem_append, List.mem_singleton, List.mem_cons]
        tauto

/-- C3: a tag update synthesizes a two-step sequence — the clear-all-tags
invocation is executed first, then the main invocation carrying exactly
the `+tag` tokens of the requested set — and under the tool's tag
primitives (clear-all, add) the resulting tag set equals exactly the
requested set, for any prior tag set: never a union with prior tags. -/
theorem claim3_tag_replacement (env : Env) (id : String) (l prior : List String)
    (s0 : Stdout) (e0 : String) (h0 : env.call 0 = .out s0 e0) :
    (updateTask env id (tagOnlyUpdate l)).evs =
      .exec (clearTagsCmd id) :: (updateTaskMain env 1 id (tagOnlyUpdate l)).evs ∧
    (updateTaskMain env 1 id (tagOnlyUpdate l)).evs.head? =
      some (.exec (updateMainCmd id (tagOnlyUpdate l))) ∧
    updateTagOps (tagOnlyUpdate l) = .clearAll :: l.map .add ∧
    (∀ t, t ∈ runTagOps prior (updateTagOps (tagOnlyUpdate l)) ↔ t ∈ l) ∧
    (l ≠ [] → updateRest (tagOnlyUpdate l) = [joinSpace (tagTokens l)]) := by
  refine ⟨?_, updateTaskMain_evs_head env 1 id (tagOnlyUpdate l), rfl, ?_, ?_⟩
  · have hst := clearTagsCmd_startsWith id
    simp [updateTask, tagOnlyUpdate, executeCommand, h0, hst]
  · intro t
    simp only [updateTagOps, tagOnlyUpdate, runTagOps]
    rw [runTagOps_adds]
    simp
  · intro hl
    simp [updateRest, tagOnlyUpdate, truthy, dueComps, statusComps, tagComps,
      List.length_pos, hl]

/-- C3 witness at concrete inputs, including the string-level check that
the tag-affecting tokens of the two synthesized invocations are exactly
the clear-all followed by the requested `+tag` adds. -/
theorem claim3_witness :
    ((updateTask envAdvisory "u-1" (tagOnlyUpdate ["home", "work"])).evs =
      .exec (clearTagsCmd "u-1") ::
        (updateTaskMain envAdvisory 1 "u-1" (tagOnlyUpdate ["home", "work"])).evs ∧
     (updateTaskMain envAdvisory 1 "u-1" (tagOnlyUpdate ["home", "work"])).evs.head? =
      some (.exec (updateMainCmd "u-1" (tagOnlyUpdate ["home", "work"]))) ∧
     updateTagOps (tagOnlyUpdate ["home", "work"]) =
       .clearAll :: (["home", "work"].map .add) ∧
     (∀ t, t ∈ runTagOps ["old"] (updateTagOps (tagOnlyUpdate ["home", "work"])) ↔
        t ∈ ["home", "work"]) ∧
     ((["home", "work"] : List String) ≠ [] →
        updateRest (tagOnlyUpdate ["home", "work"]) =
          [joinSpace (tagTokens ["home", "work"])])) ∧
    tagOpsOfCmd (clearTagsCmd "u-1") ++
        tagOpsOfCmd (updateMainCmd "u-1" (tagOnlyUpdate ["home", "work"])) =
      updateTagOps (tagOnlyUpdate ["home", "work"]) ∧
    runTagOps ["old"] (updateTagOps (tagOnlyUpdate ["home", "work"])) =
      ["home", "work"] :=
  ⟨claim3_tag_replacement envAdvisory "u-1" ["home", "work"] ["old"]
      (.text "ok") "advisory text" (by rfl),
   by decide, by decide⟩

/-- C4: for a (truthy) status update to `completed` the synthesized
invocation replaces its head with the dedicated `done` sub-command and
pushes no generic `status:` component; `deleted` likewise uses the
dedicated `delete` sub-command; any other non-empty status value keeps the
generic `modify` head and is synthesized as a `status:<value>` field
update. -/
theorem claim4_status_subcommands (id : String) (u : UpdateReq) :
    (u.status = some "completed" →
      updateHead id u = baseCommand ++ " uuid:" ++ id ++ " done" ∧
      statusComps u = [] ∧
      updateMainCmd id u =
        joinSpace ((baseCommand ++ " uuid:" ++ id ++ " done") :: updateRest u)) ∧
    (u.status = some "deleted" →
      updateHead id u = baseCommand ++ " uuid:" ++ id ++ " delete" ∧
      statusComps u = [] ∧
      updateMainCmd id u =
        joinSpace ((baseCommand ++ " uuid:" ++ id ++ " delete") :: updateRest u)) ∧
    (∀ s, u.status = some s → s ≠ "" → s ≠ "completed" → s ≠ "deleted" →
      updateHead id u = baseCommand ++ " uuid:" ++ id ++ " modify" ∧
      statusComps u = ["status:" ++ s]) := by
  refine ⟨fun h => ?_, fun h => ?_, fun s h h1 h2 h3 => ?_⟩
  · simp [updateHead, statusComps, updateMainCmd, h]
  · simp [updateHead, statusComps, updateMainCmd, h]
  · simp [updateHead, statusComps, updateMainCmd, h, h1, h2, h3]

/-- C4 witness at concrete inputs. -/
theorem claim4_witness :
    (updateHead "11-22" { status := some "completed" } =
       baseCommand ++ " uuid:" ++ "11-22" ++ " done" ∧
     statusComps { status := some "completed" } = [] ∧
     updateMainCmd "11-22" { status := some "completed" } =
       joinSpace ((baseCommand ++ " uuid:" ++ "11-22" ++ " done") ::
         updateRest { status := some "completed" })) ∧
    (updateHead "11-22" { status := some "deleted" } =
       baseCommand ++ " uuid:" ++ "11-22" ++ " delete" ∧
     statusComps { status := some "deleted" } = [] ∧
     updateMainCmd "11-22" { status := some "deleted" } =
       joinSpace ((baseCommand ++ " uuid:" ++ "11-22" ++ " delete") ::
         updateRest { status := some "deleted" })) ∧
    (updateHead "11-22" { status := some "waiting" } =
       baseCommand ++ " uuid:" ++ "11-22" ++ " modify" ∧
     statusComps { status := some "waiting" } = ["status:" ++ "waiting"]) :=
  ⟨(claim4_status_subcommands "11-22" { status := some "completed" }).1 rfl,
   (claim4_status_subcommands "11-22" { status := some "deleted" }).2.1 rfl,
   (claim4_status_subcommands "11-22" { status := some "waiting" }).2.2 "waiting"
     rfl (by decide) (by decide) (by decide)⟩

/-- C5 (amended): a due date is always encoded as the `due:YYYY-MM-DD`
component with the time-of-day half of the ISO rendering stripped, in
both create and update synthesis, and synthesis never fails; no
corrected-input condition is logged (see the counterexample). -/
theorem claim5_time_stripped (task : InsertTask) (u : UpdateReq) (d e : DateVal) :
    (task.due = some d →
      dueComps task.due = ["due:" ++ d.datePart] ∧
      "due:" ++ d.datePart ∈ createComponents task) ∧
    (u.due = some e →
      dueComps u.due = ["due:" ++ e.datePart] ∧
      "due:" ++ e.datePart ∈ updateRest u) := by
  constructor <;> intro h <;>
    simp [createComponents, updateRest, dueComps, h]

/-- C5 witness at concrete inputs. -/
theorem claim5_witness :
    (dueComps (some ⟨"2025-01-15", "14:30:00.000Z"⟩) = ["due:" ++ "2025-01-15"] ∧
     "due:" ++ "2025-01-15" ∈
       createComponents { description := "Buy milk",
                          due := some ⟨"2025-01-15", "14:30:00.000Z"⟩ }) ∧
    (dueComps (some ⟨"2025-01-15", "14:30:00.000Z"⟩) = ["due:" ++ "2025-01-15"] ∧
     "due:" ++ "2025-01-15" ∈
       updateRest { due := some ⟨"2025-01-15", "14:30:00.000Z"⟩ }) :=
  ⟨(claim5_time_stripped
      { description := "Buy milk", due := some ⟨"2025-01-15", "14:30:00.000Z"⟩ }
      { due := some ⟨"2025-01-15", "14:30:00.000Z"⟩ }
      ⟨"2025-01-15", "14:30:00.000Z"⟩ ⟨"2025-01-15", "14:30:00.000Z"⟩).1 rfl,
   (claim5_time_stripped
      { description := "Buy milk", due := some ⟨"2025-01-15", "14:30:00.000Z"⟩ }
      { due := some ⟨"2025-01-15", "14:30:00.000Z"⟩ }
      ⟨"2025-01-15", "14:30:00.000Z"⟩ ⟨"2025-01-15", "14:30:00.000Z"⟩).2 rfl⟩

/-- C5 counterexample: two create requests whose due dates differ only in
their time-of-day component synthesize the identical invocation and emit
identical console output, all of it plain `console.log` — contrary to the
claim, no corrected-input condition is logged when the `HH:MM` component
is stripped (the stripping is observable nowhere). -/
theorem claim5_counterexample :
    reqTimeA.due ≠ reqTimeB.due ∧
    createTaskwarriorCommand reqTimeA = createTaskwarriorCommand reqTimeB ∧
    createTaskwarriorCommand reqTimeA =
      "task rc:data/taskwarrior/.taskrc add \"Buy milk\" due:2025-01-15" ∧
    (createTask envDates reqTimeA).logs = (createTask envDates reqTimeB).logs ∧
    ((createTask envDates reqTimeA).logs.all LogEvent.isInfo) = true := by
  decide

/-- C7: a one-line `add <description>` command is split by the bridge into
the `add` trigger line written immediately and the description line
written after the fixed 100 ms delay; every other multi-word command is
forwarded verbatim as a single line. -/
theorem claim7_add_two_step (cmd : String) (hsp : containsChar cmd ' ' = true) :
    (strStartsWith cmd "add " = true →
      bridgeWrites cmd = [(0, "add" ++ "\n"), (100, substrFrom cmd 4 ++ "\n")]) ∧
    (strStartsWith cmd "add " = false →
      bridgeWrites cmd = [(0, cmd ++ "\n")]) := by
  constructor <;> intro h <;> simp [bridgeWrites, hsp, h]

/-- C7 witness at concrete inputs. -/
theorem claim7_witness :
    (containsChar "add Buy eggs" ' ' = true) ∧
    bridgeWrites "add Buy eggs" =
      [(0, "add" ++ "\n"), (100, substrFrom "add Buy eggs" 4 ++ "\n")] ∧
    bridgeWrites "task list" = [(0, "task list" ++ "\n")] ∧
    substrFrom "add Buy eggs" 4 = "Buy eggs" :=
  ⟨by decide,
   (claim7_add_two_step "add Buy eggs" (by decide)).1 (by decide),
   (claim7_add_two_step "task list" (by decide)).2 (by decide),
   by decide⟩

/-- C6 (amended): `executeCommand` fails exactly when the subprocess call
rejects (spawn failure or non-zero exit); when the process exits with
status zero its stdout is returned even if stderr is non-empty, the
stderr being logged via the error channel (`console.error`) as advisory
only — no `console.warn` entry is ever emitted. -/
theorem claim6_exec_error_semantics (env : Env) (k : Nat) (cmd : String)
    (s : Stdout) (e : String) :
    (isErr (executeCommand env k cmd).res = (env.call k).isThrown) ∧
    (env.call k = .out s e →
      (executeCommand env k cmd).res = .ok s ∧
      (e ≠ "" →
        LogEvent.consoleError ("Taskwarrior stderr: " ++ e) ∈
          (executeCommand env k cmd).logs) ∧
      ((executeCommand env k cmd).logs.all fun l => !l.isWarn) = true) := by
  constructor
  · cases hc : env.call k <;>
      simp [executeCommand, hc, isErr, CallResult.isThrown]
  · intro h
    refine ⟨by simp [executeCommand, h], fun he => ?_, ?_⟩
    · simp [executeCommand, h, he]
    · by_cases he : e = "" <;> simp [executeCommand, h, he, LogEvent.isWarn]

/-- C6 witness at concrete inputs. -/
theorem claim6_witness :
    (isErr (executeCommand envAdvisory 0 "list").res =
      (envAdvisory.call 0).isThrown) ∧
    (executeCommand envAdvisory 0 "list").res = .ok (.text "ok") ∧
    LogEvent.consoleError ("Taskwarrior stderr: " ++ "advisory text") ∈
      (executeCommand envAdvisory 0 "list").logs :=
  ⟨(claim6_exec_error_semantics envAdvisory 0 "list" (.text "ok") "advisory text").1,
   ((claim6_exec_error_semantics envAdvisory 0 "list" (.text "ok") "advisory text").2
      rfl).1,
   (((claim6_exec_error_semantics envAdvisory 0 "list" (.text "ok") "advisory text").2
      rfl).2.1 (by decide))⟩

/-- C6 counterexample: a call that exits with status zero but emits
stderr logs the stderr through `console.error` — not `console.warn` as
the claim's "logged as a warning" states — while still returning the
stdout result; the log stream contains no warning entry at all. -/
theorem claim6_counterexample :
    (executeCommand envAdvisory 0 "list").res = .ok (.text "ok") ∧
    (executeCommand envAdvisory 0 "list").logs =
      [.consoleLog "Executing full command: task rc:data/taskwarrior/.taskrc list",
       .consoleError "Taskwarrior stderr: advisory text"] ∧
    ((executeCommand envAdvisory 0 "list").logs.all fun l => !l.isWarn) = true := by
  decide

/-- C8: once `terminated` is set, no `output`/`error`/`command` envelope
is ever sent again and the state stays terminated; the server closes the
channel only on observing subprocess exit, and that transition emits the
farewell `output` envelope immediately before the close; observing the
transport close first kills the subprocess; both transitions make the
terminal state final.  (When the transport close is observed first the
channel is already closed by the peer, so the server closes nothing and
the farewell concerns only the server-side close.) -/
theorem claim8_session_termination (po : String → String) (st : SessState)
    (e : SessEvent) :
    (st.terminated = true →
      ((sessStep po st e).2.all fun a => !a.isEnvelope) = true ∧
      (sessStep po st e).1.terminated = true) ∧
    (Action.closeWs ∈ (sessStep po st e).2 →
      st.terminated = false ∧ (∃ c, e = .procClose c) ∧
      (sessStep po st e).2 = [.sendOutput farewellMsg, .closeWs] ∧
      (sessStep po st e).1.terminated = true) ∧
    (st.terminated = false →
      (sessStep po st .wsClose).2 = [.killProc] ∧
      (sessStep po st .wsClose).1.terminated = true) ∧
    (∀ c, st.terminated = false →
      (sessStep po st (.procClose c)).2 = [.sendOutput farewellMsg, .closeWs] ∧
      (sessStep po st (.procClose c)).1.terminated = true) := by
  obtain ⟨t⟩ := st
  cases t <;> cases e <;>
    first
      | (rename_i m; cases m <;> simp [sessStep, Action.isEnvelope])
      | simp [sessStep, Action.isEnvelope]

/-- C8 witness at concrete inputs. -/
theorem claim8_witness :
    (((sessStep id ⟨true⟩ (.stdoutData "x")).2.all fun a => !a.isEnvelope) = true ∧
      (sessStep id ⟨true⟩ (.stdoutData "x")).1.terminated = true) ∧
    ((sessStep id ⟨false⟩ .wsClose).2 = [.killProc] ∧
      (sessStep id ⟨false⟩ .wsClose).1.terminated = true) ∧
    ((sessStep id ⟨false⟩ (.procClose 0)).2 =
        [.sendOutput farewellMsg, .closeWs] ∧
      (sessStep id ⟨false⟩ (.procClose 0)).1.terminated = true) :=
  ⟨(claim8_session_termination id ⟨true⟩ (.stdoutData "x")).1 rfl,
   (claim8_session_termination id ⟨false⟩ .wsClose).2.2.1 rfl,
   (claim8_session_termination id ⟨false⟩ (.procClose 0)).2.2.2 0 rfl⟩

/-- C9 (amended): identifiers are never empty (a falsy export `uuid` is
replaced by a fabricated `tw_<now>` id, and the degraded fallbacks carry
the transient or stable id handed to them, non-empty in context); parsed
descriptions equal the export record's description when that is
non-empty, but an absent or empty export description yields the empty
string (see the counterexample); the degraded fallback records have
non-empty descriptions whenever the request's description is non-empty
(`updateTask`'s fallback defaults to `Unknown task`). -/
theorem claim9_nonempty_fields (nowMs : Nat) (tw : TwTask) (task : InsertTask)
    (tid id : String) (updates : UpdateReq) :
    (convertTaskwarriorTask nowMs tw).id ≠ "" ∧
    (∀ d, tw.description = some d → d ≠ "" →
      (convertTaskwarriorTask nowMs tw).description = d) ∧
    (task.description ≠ "" → (degradedCreateRec task tid).description ≠ "") ∧
    (tid ≠ "" → (degradedCreateRec task tid).id ≠ "") ∧
    (degradedUpdateRec id updates).description ≠ "" ∧
    (id ≠ "" → (degradedUpdateRec id updates).id ≠ "") := by
  have hfab : ("tw_" ++ toString nowMs) ≠ "" := by
    intro hcontra
    have hlen := congrArg String.length hcontra
    rw [String.length_append] at hlen
    have h3 : ("tw_" : String).length = 3 := rfl
    have h0 : ("" : String).length = 0 := rfl
    rw [h3, h0] at hlen
    omega
  refine ⟨?_, ?_, ?_, ?_, ?_, ?_⟩
  · cases huu : tw.uuid with
    | none => simpa [convertTaskwarriorTask, huu] using hfab
    | some u =>
        by_cases hu : u = "" <;> simp [convertTaskwarriorTask, huu, hu]
        exact hfab
  · intro d hd hne
    simp [convertTaskwarriorTask, hd, jsOrStr, hne]
  · intro h; simpa [degradedCreateRec] using h
  · intro h; simpa [degradedCreateRec] using h
  · cases hud : updates.description with
    | none => simp [degradedUpdateRec, jsOrStr, hud]
    | some s =>
        by_cases hs : s = "" <;> simp [degradedUpdateRec, jsOrStr, hud, hs]
  · intro h; simpa [degradedUpdateRec] using h

/-- C9 witness at concrete inputs. -/
theorem claim9_witness :
    (convertTaskwarriorTask 7 { uuid := some "u-1", description := some "Buy milk" }).id ≠ "" ∧
    (convertTaskwarriorTask 7 { uuid := some "u-1", description := some "Buy milk" }).description
      = "Buy milk" ∧
    (degradedCreateRec { description := "Buy milk" } "3").description ≠ "" ∧
    (degradedCreateRec { description := "Buy milk" } "3").id ≠ "" ∧
    (degradedUpdateRec "u-1" {}).description ≠ "" ∧
    (degradedUpdateRec "u-1" {}).id ≠ "" :=
  have h := claim9_nonempty_fields 7
    { uuid := some "u-1", description := some "Buy milk" }
    { description := "Buy milk" } "3" "u-1" {}
  ⟨h.1, h.2.1 "Buy milk" rfl (by decide), h.2.2.1 (by decide), h.2.2.2.1 (by decide),
   h.2.2.2.2.1, h.2.2.2.2.2 (by decide)⟩

/-- C9 counterexample: a read through the engine of an export record with
no description field produces a Task whose description is the empty
string (`twTask.description || ""`), contradicting the invariant that a
description is never empty once a Task exists. -/
theorem claim9_counterexample :
    (getTask envNoDesc 0 "u-1").res =
      .ok (some (convertTaskwarriorTask 0 { uuid := some "u-1" })) ∧
    (convertTaskwarriorTask 0 { uuid := some "u-1" }).description = "" ∧
    (convertTaskwarriorTask 0 { uuid := some "u-1" }).id = "u-1" := by
  decide

/-- C10 (amended): while the socket is absent (during an outage, within
or beyond the reconnect ceiling of 5 attempts spaced 2000 ms apart), a
command entered with Enter is appended to history and an inline error
message is displayed, but no frame is sent and nothing queues it for
retransmission; the input buffer is cleared unconditionally — not only
after a confirmed send (when the socket is open the frame is sent and the
buffer is cleared the same way). -/
theorem claim10_outage_buffer (st : TermState) :
    (st.wsOpen = false → jsTrim st.inputBuffer ≠ "" →
      (enterKey st).1.inputBuffer = "" ∧
      (enterKey st).1.history = st.history ++ [jsTrim st.inputBuffer] ∧
      ((enterKey st).2.all fun a => !a.isSend) = true ∧
      TermAction.writeLine
          "\x1B[1;31mWebSocket not connected. Try refreshing the page.\x1B[0m" ∈
        (enterKey st).2) ∧
    (st.wsOpen = true → jsTrim st.inputBuffer ≠ "" →
      (enterKey st).1.inputBuffer = "" ∧
      TermAction.sendJson (jsTrim st.inputBuffer) ∈ (enterKey st).2) ∧
    maxReconnectAttempts = 5 ∧ reconnectDelay = 2000 := by
  refine ⟨fun hws htr => ?_, fun hws htr => ?_, rfl, rfl⟩ <;>
    simp [enterKey, hws, htr, TermAction.isSend]

/-- C10 witness at concrete inputs. -/
theorem claim10_witness :
    ((enterKey ⟨"list", [], -1, false⟩).1.inputBuffer = "" ∧
     (enterKey ⟨"list", [], -1, false⟩).1.history = [] ++ [jsTrim "list"] ∧
     ((enterKey ⟨"list", [], -1, false⟩).2.all fun a => !a.isSend) = true ∧
     TermAction.writeLine
         "\x1B[1;31mWebSocket not connected. Try refreshing the page.\x1B[0m" ∈
       (enterKey ⟨"list", [], -1, false⟩).2) ∧
    ((enterKey ⟨"list", [], -1, true⟩).1.inputBuffer = "" ∧
     TermAction.sendJson (jsTrim "list") ∈ (enterKey ⟨"list", [], -1, true⟩).2) :=
  ⟨(claim10_outage_buffer ⟨"list", [], -1, false⟩).1 rfl (by decide),
   (claim10_outage_buffer ⟨"list", [], -1, true⟩).2.1 rfl (by decide)⟩

/-- C10 counterexample: with the socket closed, Enter on a non-empty
buffer emits no frame (the command is displayed as lost, not queued) and
the buffer is nevertheless cleared — the claim's "cleared only after a
confirmed send" fails. -/
theorem claim10_counterexample :
    (enterKey ⟨"list", [], -1, false⟩).1.inputBuffer = "" ∧
    ((enterKey ⟨"list", [], -1, false⟩).2.all fun a => !a.isSend) = true ∧
    (enterKey ⟨"list", [], -1, false⟩).1.history = ["list"] := by
  decide

end TaskMaster
